import Mathlib

/-!
Verification of a minimal Redis-like key-value server (Rust sources:
src/main.rs, src/parse.rs, src/store.rs) against its natural-language
specification.

Modelling conventions:
* Byte buffers are `List Nat`, each element a byte value (< 256 where it
  matters; theorems add that hypothesis when needed).
* Fallible or panicking Rust code is embedded in `Option`: `none` stands
  for a panic (out-of-bounds indexing, `unwrap` of a failed parse).
  Where the Rust distinguishes a recoverable `Err` from a panic, the
  result type is `Option (Except Unit _)`: `none` is a panic,
  `some (.error ())` a returned `Err`, `some (.ok v)` success.
* Machine arithmetic follows the release profile the program is built
  with: `u8`/`usize` operations wrap, modelled with explicit `% 256` and
  `% 2 ^ 64`.
* `SystemTime` instants are `Nat` millisecond timestamps passed
  explicitly to each store operation.
-/

/-- The `Command` enum.  `main.rs` declares `Ping`, `Echo`, `Set`, `Get`;
the later iteration interpreted in `parse.rs` additionally produces
`ConfigGet` and `Unknown`.  One type covers both parsers. -/
inductive Command where
  | Ping : Command
  | Echo : String → Command
  | Set : String → String → Option Nat → Command
  | Get : String → Command
  | ConfigGet : String → Command
  | Unknown : Command
deriving DecidableEq

/-- ASCII lowercase of one character, `A`-`Z` mapped to `a`-`z`. -/
def charLower (c : Char) : Char :=
  if 65 ≤ c.toNat ∧ c.toNat ≤ 90 then Char.ofNat (c.toNat + 32) else c

/-- ASCII uppercase of one character, `a`-`z` mapped to `A`-`Z`. -/
def charUpper (c : Char) : Char :=
  if 97 ≤ c.toNat ∧ c.toNat ≤ 122 then Char.ofNat (c.toNat - 32) else c

/-- Model of Rust `str::to_lowercase`: character-wise ASCII lowering.
(The Rust function performs full Unicode lowering; the two agree on the
ASCII text every comparison in this program is made against.) -/
def strLower (s : String) : String := String.mk (s.data.map charLower)

/-- Model of Rust `str::to_ascii_uppercase` (exact: that function is
ASCII-only by definition). -/
def strUpperAscii (s : String) : String := String.mk (s.data.map charUpper)

/-- Rust `str::parse::<u64>`: an optional leading `+` sign, then at least
one ASCII decimal digit, value within `u64` range; anything else is an
`Err`. -/
def parseU64 (s : String) : Option Nat :=
  let ds := match s.data with
    | '+' :: rest => rest
    | l => l
  if ds.isEmpty then none
  else if ds.all Char.isDigit then
    let n := ds.foldl (fun a c => a * 10 + (c.toNat - 48)) 0
    if n < 2 ^ 64 then some n else none
  else none

/-- The token-level command dispatch of `parse.rs::parse_command`
(lines 55-77), as a function of the decoded token list.  `none` models a
panic: `tokens[0]` / `tokens[1]` indexing out of bounds, or the
`tokens[3].parse::<u64>().unwrap()` in the 5-token `set` arm (note the
source parses `tokens[3]`, the `px` marker itself, not `tokens[4]`).
Rust `to_lowercase` is modelled by `strLower`. -/
def interpret (tokens : List String) : Option Command :=
  match tokens with
  | [] => none
  | t0 :: _ =>
    let name := strLower t0
    if name = "ping" then some Command.Ping
    else if name = "echo" then
      match tokens.get? 1 with
      | some m => some (Command.Echo m)
      | none => none
    else if name = "set" then
      if tokens.length = 3 then
        some (Command.Set (tokens.getD 1 "") (tokens.getD 2 "") none)
      else if tokens.length = 5 ∧ strLower (tokens.getD 3 "") = "px" then
        match parseU64 (tokens.getD 3 "") with
        | some n => some (Command.Set (tokens.getD 1 "") (tokens.getD 2 "") (some n))
        | none => none
      else some Command.Unknown
    else if name = "get" then
      match tokens.get? 1 with
      | some k => some (Command.Get k)
      | none => none
    else if name = "config" then
      if tokens.length < 3 then some Command.Unknown
      else if strLower (tokens.getD 1 "") = "get" then
        some (Command.ConfigGet (tokens.getD 2 ""))
      else some Command.Unknown
    else some Command.Unknown

instance {ε α : Type} [DecidableEq ε] [DecidableEq α] : DecidableEq (Except ε α) := fun a b =>
  match a, b with
  | .error e1, .error e2 =>
    if h : e1 = e2 then .isTrue (congrArg Except.error h)
    else .isFalse (fun hh => h (Except.error.inj hh))
  | .error _, .ok _ => .isFalse (fun hh => Except.noConfusion hh)
  | .ok _, .error _ => .isFalse (fun hh => Except.noConfusion hh)
  | .ok v1, .ok v2 =>
    if h : v1 = v2 then .isTrue (congrArg Except.ok h)
    else .isFalse (fun hh => h (Except.ok.inj hh))

/-- Byte values of an ASCII string literal (used to write wire frames
readably; for ASCII text the code points are the UTF-8 bytes). -/
def bytesOf (s : String) : List Nat := s.data.map Char.toNat

/-- Loop body of `parse_lenght` (sic, both `main.rs` and `parse.rs`):
`while input[pos] != CR` accumulate `len = len * 10 + (input[pos] - 48)`.
The result is `(len, index of the CR)`.  `none` models the out-of-bounds
panic when no CR is found.  Release-profile wrapping: the `u8`
subtraction wraps modulo 256 and the `usize` accumulator modulo
`2 ^ 64`. -/
def parse_lenght_loop : List Nat → Nat → Option (Nat × Nat)
  | [], _ => none
  | b :: rest, acc =>
    if b = 13 then some (acc, 0)
    else
      match parse_lenght_loop rest ((acc * 10 + (b + 256 - 48) % 256) % 2 ^ 64) with
      | some (len, cnt) => some (len, cnt + 1)
      | none => none

/-- `parse_lenght(input, &mut len) -> pos + 2`: the decoded value and the
byte count consumed, counting the index of the CR plus 2 (the CRLF
terminator; the LF byte is never inspected). -/
def parse_lenght (input : List Nat) : Option (Nat × Nat) :=
  match parse_lenght_loop input 0 with
  | some (len, cnt) => some (len, cnt + 2)
  | none => none

/-- Is `b` a UTF-8 continuation byte (`0x80..0xBF`)? -/
def utf8Cont (b : Nat) : Bool := 128 ≤ b && b < 192

/-- Valid second byte of a 3-byte UTF-8 sequence led by `b0`
(`E0` restricts to `A0..BF`, `ED` to `80..9F`, otherwise any
continuation byte). -/
def utf8Snd3 (b0 b1 : Nat) : Bool :=
  if b0 = 224 then 160 ≤ b1 && b1 < 192
  else if b0 = 237 then 128 ≤ b1 && b1 < 160
  else utf8Cont b1

/-- Valid second byte of a 4-byte UTF-8 sequence led by `b0`
(`F0` restricts to `90..BF`, `F4` to `80..8F`). -/
def utf8Snd4 (b0 b1 : Nat) : Bool :=
  if b0 = 240 then 144 ≤ b1 && b1 < 192
  else if b0 = 244 then 128 ≤ b1 && b1 < 144
  else utf8Cont b1

/-- The U+FFFD replacement character. -/
def replChar : Char := Char.ofNat 65533

/-- Model of Rust `String::from_utf8_lossy` as a list of decoded scalar
values: well-formed sequences decode to their code point; an invalid
byte run is replaced by one U+FFFD per maximal valid prefix of a
sequence (Rust's error-length rule), and a truncated sequence at the end
of input yields a single U+FFFD. -/
def utf8Lossy : List Nat → List Char
  | [] => []
  | b0 :: rest =>
    if b0 < 128 then Char.ofNat b0 :: utf8Lossy rest
    else if b0 < 194 then replChar :: utf8Lossy rest
    else if b0 < 224 then
      match rest with
      | [] => [replChar]
      | b1 :: r1 =>
        if utf8Cont b1 then
          Char.ofNat ((b0 - 192) * 64 + (b1 - 128)) :: utf8Lossy r1
        else replChar :: utf8Lossy (b1 :: r1)
    else if b0 < 240 then
      match rest with
      | [] => [replChar]
      | b1 :: r1 =>
        if utf8Snd3 b0 b1 then
          match r1 with
          | [] => [replChar]
          | b2 :: r2 =>
            if utf8Cont b2 then
              Char.ofNat (((b0 - 224) * 64 + (b1 - 128)) * 64 + (b2 - 128)) :: utf8Lossy r2
            else replChar :: utf8Lossy (b2 :: r2)
        else replChar :: utf8Lossy (b1 :: r1)
    else if b0 < 245 then
      match rest with
      | [] => [replChar]
      | b1 :: r1 =>
        if utf8Snd4 b0 b1 then
          match r1 with
          | [] => [replChar]
          | b2 :: r2 =>
            if utf8Cont b2 then
              match r2 with
              | [] => [replChar]
              | b3 :: r3 =>
                if utf8Cont b3 then
                  Char.ofNat ((((b0 - 240) * 64 + (b1 - 128)) * 64 + (b2 - 128)) * 64 + (b3 - 128))
                    :: utf8Lossy r3
                else replChar :: utf8Lossy (b3 :: r3)
            else replChar :: utf8Lossy (b2 :: r2)
        else replChar :: utf8Lossy (b1 :: r1)
    else replChar :: utf8Lossy rest

/-- Model of `String::from_utf8_lossy(..).to_string()`. -/
def utf8LossyStr (bs : List Nat) : String := String.mk (utf8Lossy bs)

/-- Model of Rust `String::from_utf8`: strict decoding, `none` on any
ill-formed input (in the source every use is `.unwrap()`ed, so `none`
propagates as a panic). -/
def utf8Decode : List Nat → Option (List Char)
  | [] => some []
  | b0 :: rest =>
    if b0 < 128 then (utf8Decode rest).map (Char.ofNat b0 :: ·)
    else if b0 < 194 then none
    else if b0 < 224 then
      match rest with
      | b1 :: r1 =>
        if utf8Cont b1 then
          (utf8Decode r1).map (Char.ofNat ((b0 - 192) * 64 + (b1 - 128)) :: ·)
        else none
      | [] => none
    else if b0 < 240 then
      match rest with
      | b1 :: b2 :: r2 =>
        if utf8Snd3 b0 b1 && utf8Cont b2 then
          (utf8Decode r2).map
            (Char.ofNat (((b0 - 224) * 64 + (b1 - 128)) * 64 + (b2 - 128)) :: ·)
        else none
      | _ => none
    else if b0 < 245 then
      match rest with
      | b1 :: b2 :: b3 :: r3 =>
        if utf8Snd4 b0 b1 && utf8Cont b2 && utf8Cont b3 then
          (utf8Decode r3).map
            (Char.ofNat ((((b0 - 240) * 64 + (b1 - 128)) * 64 + (b2 - 128)) * 64 + (b3 - 128)) :: ·)
        else none
      | _ => none
    else none

/-- `parse_bulk_string` (identical in `main.rs` and `parse.rs`): requires
the `$` marker (else `Err`), reads the length field, slices exactly that
many payload bytes (panic if the buffer is shorter), converts them
lossily, and reports `marker + length-field + payload + 2` bytes
consumed.  Neither the payload bytes nor the trailing CRLF are
validated. -/
def parse_bulk_string : List Nat → Option (Except Unit (String × Nat))
  | [] => none
  | b0 :: rest =>
    if b0 ≠ 36 then some (Except.error ()) else
    match parse_lenght rest with
    | none => none
    | some (len, off) =>
      let pos := 1 + off
      if (b0 :: rest).length < pos + len then none
      else some (Except.ok (utf8LossyStr (((b0 :: rest).drop pos).take len), pos + len + 2))

/-- `main.rs::parse_echo_arg`: the `Result` of the inner bulk-string
parse is discarded (`let _ = ...`), so a recoverable `Err` leaves the
argument as the empty string and still returns `Ok`; only a panic
(`none`) aborts. -/
def parse_echo_arg (input : List Nat) : Option String :=
  match parse_bulk_string input with
  | none => none
  | some (Except.error _) => some ""
  | some (Except.ok (s, _)) => some s

/-- `main.rs::parse_get_arg`: same discarded-`Result` shape as
`parse_echo_arg`. -/
def parse_get_arg (input : List Nat) : Option String :=
  match parse_bulk_string input with
  | none => none
  | some (Except.error _) => some ""
  | some (Except.ok (s, _)) => some s

/-- `main.rs::parse_set_arg`: key bulk string, explicit `$` check on the
following byte, value bulk string; with `arg_count = 2` no TTL,
otherwise a `px` marker bulk string (case-insensitive, else `Err`) and a
TTL bulk string parsed with `parse::<u64>().unwrap()` (panic on a
non-numeric TTL). -/
def parse_set_arg (input : List Nat) (arg_count : Nat) :
    Option (Except Unit (String × String × Option Nat)) :=
  match parse_bulk_string input with
  | none => none
  | some (Except.error e) => some (Except.error e)
  | some (Except.ok (key, p1)) =>
    match input.get? p1 with
    | none => none
    | some b =>
      if b ≠ 36 then some (Except.error ()) else
      match parse_bulk_string (input.drop p1) with
      | none => none
      | some (Except.error e) => some (Except.error e)
      | some (Except.ok (value, c2)) =>
        let p2 := p1 + c2
        if arg_count = 2 then some (Except.ok (key, value, none)) else
        match parse_bulk_string (input.drop p2) with
        | none => none
        | some (Except.error e) => some (Except.error e)
        | some (Except.ok (arg, c3)) =>
          let p3 := p2 + c3
          if strLower arg ≠ "px" then some (Except.error ()) else
          match parse_bulk_string (input.drop p3) with
          | none => none
          | some (Except.error e) => some (Except.error e)
          | some (Except.ok (expiry, _)) =>
            match parseU64 expiry with
            | none => none
            | some n => some (Except.ok (key, value, some n))

/-- Final dispatch of `main.rs::parse_command` once the uppercased
command name, the declared argument count and the remaining bytes are
known.  Only `PING`, `ECHO`, `SET` and `GET` are recognized; every other
name is an `Err`. -/
def dispatch_main (cmd : String) (args_count : Nat) (rest : List Nat) :
    Option (Except Unit Command) :=
  if cmd = "PING" then some (Except.ok Command.Ping)
  else if cmd = "ECHO" then
    if args_count ≠ 2 then some (Except.error ()) else
    match parse_echo_arg rest with
    | none => none
    | some s => some (Except.ok (Command.Echo s))
  else if cmd = "SET" then
    if args_count < 3 then some (Except.error ()) else
    match parse_set_arg rest (args_count - 1) with
    | none => none
    | some (Except.error e) => some (Except.error e)
    | some (Except.ok (k, v, e)) => some (Except.ok (Command.Set k v e))
  else if cmd = "GET" then
    if args_count ≠ 2 then some (Except.error ()) else
    match parse_get_arg rest with
    | none => none
    | some s => some (Except.ok (Command.Get s))
  else some (Except.error ())

/-- `main.rs::parse_command` (lines 90-136): `*` marker, array length,
`$` marker, name length, lossily decoded and ASCII-uppercased command
name, then per-command argument parsing on the bytes after the name's
CRLF.  `none` is a panic, `some (.error ())` the `Err` the connection
handler catches. -/
def parse_command_main : List Nat → Option (Except Unit Command)
  | [] => none
  | b0 :: rest =>
    if b0 ≠ 42 then some (Except.error ()) else
    match parse_lenght rest with
    | none => none
    | some (args_count, off1) =>
      match (b0 :: rest).get? (1 + off1) with
      | none => none
      | some b1 =>
        if b1 ≠ 36 then some (Except.error ()) else
        match parse_lenght ((b0 :: rest).drop (1 + off1 + 1)) with
        | none => none
        | some (len, off2) =>
          if (b0 :: rest).length < 1 + off1 + 1 + off2 + len then none
          else
            dispatch_main
              (strUpperAscii (utf8LossyStr (((b0 :: rest).drop (1 + off1 + 1 + off2)).take len)))
              args_count ((b0 :: rest).drop (1 + off1 + 1 + off2 + len + 2))

/-- The command shapes `main.rs`'s parser can actually produce: `PING`,
`ECHO`, `SET` and `GET` (no `KEYS`, `CONFIG GET`, or `Unknown`). -/
def recognizedMain : Command → Bool
  | Command.Ping => true
  | Command.Echo _ => true
  | Command.Set _ _ _ => true
  | Command.Get _ => true
  | _ => false

/-- One iteration of `main.rs::handle_stream`'s read loop: the
connection keeps serving further requests only when `parse_command`
returns `Ok` (an `Err` breaks out of the loop, a panic kills the
connection task; neither sends a reply). -/
def handle_stream_continues (input : List Nat) : Bool :=
  match parse_command_main input with
  | some (Except.ok _) => true
  | _ => false

/-- `store.rs::ExpiringValue`: stored string plus optional absolute
expiry instant (millisecond Unix timestamp). -/
structure ExpiringValue where
  value : String
  expires_at : Option Nat
deriving DecidableEq

/-- The `HashMap<String, ExpiringValue>` behind `Database`, modelled as
an association list whose first binding for a key is its current
value.  All mutation goes through `dbInsert` / `dbRemove`, which keep at
most one binding per key, matching the map. -/
abbrev Store := List (String × ExpiringValue)

/-- `HashMap::get(key).cloned()`. -/
def dbLookup (s : Store) (k : String) : Option ExpiringValue :=
  match s.find? (fun e => e.1 = k) with
  | some e => some e.2
  | none => none

/-- `HashMap::remove(key)` (result map only). -/
def dbRemove (s : Store) (k : String) : Store :=
  s.filter (fun e => e.1 ≠ k)

/-- `HashMap::insert(key, value)`: overwrites any previous binding. -/
def dbInsert (s : Store) (k : String) (v : ExpiringValue) : Store :=
  (k, v) :: dbRemove s k

/-- `Database::set`: insert with `expires_at = None`. -/
def dbSet (s : Store) (k v : String) : Store :=
  dbInsert s k ⟨v, none⟩

/-- `Database::set_with_expire`: insert with
`expires_at = now + ttl_ms`. -/
def dbSetWithExpire (s : Store) (k v : String) (ttl_ms now : Nat) : Store :=
  dbInsert s k ⟨v, some (now + ttl_ms)⟩

/-- `Database::get`: absent key returns `none`; a present entry whose
`expires_at` is strictly before `now` is removed and `none` returned;
otherwise the stored value is returned.  The pair is (reply, resulting
map). -/
def dbGet (s : Store) (k : String) (now : Nat) : Option String × Store :=
  match dbLookup s k with
  | some v =>
    match v.expires_at with
    | some t => if t < now then (none, dbRemove s k) else (some v.value, s)
    | none => (some v.value, s)
  | none => (none, s)

/-- The expiry test used by `Database::keys`'s scan
(`Some(expires_at) if expires_at < now`). -/
def isExpired (v : ExpiringValue) (now : Nat) : Bool :=
  match v.expires_at with
  | some t => t < now
  | none => false

/-- `Database::keys`: one scan partitioning entries into expired and
live, a batch of `remove`s for the expired keys, and the live keys as
the result.  The `pattern` parameter is accepted but never read by the
source.  The pair is (returned keys, resulting map). -/
def dbKeys (s : Store) (_pattern : String) (now : Nat) : List String × Store :=
  let expired_keys := (s.filter (fun e => isExpired e.2 now)).map (fun e => e.1)
  let valid_keys := (s.filter (fun e => !isExpired e.2 now)).map (fun e => e.1)
  (valid_keys, expired_keys.foldl (fun db k => dbRemove db k) s)

/-- `store.rs::Config` and `Config::get_file_path`. -/
structure Config where
  dir : Option String
  dbfilename : Option String

/-- `dir + "/" + dbfilename` when both are set, else no snapshot path. -/
def get_file_path (c : Config) : Option String :=
  match c.dir, c.dbfilename with
  | some d, some f => some (d ++ "/" ++ f)
  | _, _ => none

/-- `store.rs::length_encode`: the snapshot's variable-length integer
decoder, keyed on `buf[0] & 0b1100_0000`.  `none` covers both the
explicit `None` of the `11xxxxxx` arm and the panics of `buf[0]`,
`buf[1]` or `buf[1..5]` on a too-short buffer. -/
def length_encode (buf : List Nat) : Option (Nat × Nat) :=
  match buf with
  | [] => none
  | b0 :: rest =>
    let m := Nat.land b0 192
    if m = 0 then some (b0, 1)
    else if m = 64 then
      match rest with
      | b1 :: _ => some (Nat.land b0 63 * 256 + b1, 2)
      | [] => none
    else if m = 128 then
      match rest with
      | b1 :: b2 :: b3 :: b4 :: _ => some (((b1 * 256 + b2) * 256 + b3) * 256 + b4, 5)
      | _ => none
    else none

/-- `u64::from_le_bytes` over an 8-byte list. -/
def u64le (bs : List Nat) : Nat :=
  bs.foldr (fun b acc => acc * 256 + b) 0

/-- Key/value part of `store.rs::serialize_kv` from byte offset `pos0`,
after the optional expiry prefix decided `expires`: length-prefixed key
and value, each decoded with `String::from_utf8(..).unwrap()` (panic on
invalid UTF-8).  Returns the entry and the offset just past the value
bytes. -/
def serialize_kv_body (buf : List Nat) (pos0 : Nat) (expires : Option Nat) :
    Option (String × ExpiringValue × Nat) :=
  match length_encode (buf.drop pos0) with
  | none => none
  | some (key_len, off) =>
    let pos1 := pos0 + off
    if buf.length < pos1 + key_len then none else
    match utf8Decode ((buf.drop pos1).take key_len) with
    | none => none
    | some key =>
      let pos2 := pos1 + key_len
      match length_encode (buf.drop pos2) with
      | none => none
      | some (value_len, off2) =>
        let pos3 := pos2 + off2
        if buf.length < pos3 + value_len then none else
        match utf8Decode ((buf.drop pos3).take value_len) with
        | none => none
        | some value =>
          some (String.mk key, ⟨String.mk value, expires⟩, pos3 + value_len)

/-- `store.rs::serialize_kv`: a record starts with either the expiry
opcode `0xFC` followed by 8 little-endian timestamp bytes and the type
byte (cursor jumps to offset 10), or a type byte alone (offset 1);
neither type byte is validated. -/
def serialize_kv (buf : List Nat) : Option (String × ExpiringValue × Nat) :=
  match buf with
  | [] => none
  | b0 :: rest =>
    if b0 = 252 then
      if rest.length < 8 then none
      else serialize_kv_body buf 10 (some (u64le (rest.take 8)))
    else serialize_kv_body buf 1 none

/-- The record loop of `store.rs::serialize`: `hashtable_size` records
are decoded in sequence; a record already expired at load time
(`expires_at < now`) is skipped but still advances the cursor; any
record failure (`serialize_kv(..).unwrap()`) aborts with a panic. -/
def serialize_loop (buf : List Nat) (now : Nat) :
    Nat → Nat → Store → Option Store
  | _, 0, db => some db
  | pos, n + 1, db =>
    match serialize_kv (buf.drop pos) with
    | none => none
    | some (k, v, off) =>
      let db' :=
        match v.expires_at with
        | some e => if e < now then db else dbInsert db k v
        | none => dbInsert db k v
      serialize_loop buf now (pos + off) n db'

/-- `store.rs::serialize` over the 1024-byte read buffer: find the first
`0xFB` size opcode (`position(..).unwrap()`, panic when absent), decode
the two hash-table size fields, then run the record loop. -/
def serialize (buf : List Nat) (now : Nat) : Option Store :=
  match buf.findIdx? (fun b => b == 251) with
  | none => none
  | some fb_pos =>
    match length_encode (buf.drop (fb_pos + 1)) with
    | none => none
    | some (hashtable_size, off) =>
      let pos := fb_pos + 1 + off
      match length_encode (buf.drop pos) with
      | none => none
      | some (_expire_hashtable_size, off2) =>
        serialize_loop buf now (pos + off2) hashtable_size []

/-- The buffer `serialize` actually sees: `reader.read` fills at most
1024 bytes of a zero-initialized array, and the parse then runs over the
whole array (the `bytes_read` count is never consulted). -/
def read_buf (contents : List Nat) : List Nat :=
  contents.take 1024 ++ List.replicate (1024 - min contents.length 1024) 0

/-- How the snapshot file presents itself to `Database::new`. -/
inductive SnapshotFile where
  | absent : SnapshotFile
  | present : List Nat → SnapshotFile

/-- `Database::new`'s initial-map computation: no configured path or an
unopenable file yields the empty map; an opened file is parsed by
`serialize`, whose panic (`none`) aborts startup. -/
def database_new (c : Config) (file : SnapshotFile) (now : Nat) : Option Store :=
  match get_file_path c with
  | none => some []
  | some _ =>
    match file with
    | .absent => some []
    | .present contents => serialize (read_buf contents) now


set_option maxRecDepth 100000

/-! ## Helper lemmas -/

lemma parse_lenght_loop_append (bs rest : List Nat) (acc : Nat) (h : ∀ b ∈ bs, b ≠ 13) :
    parse_lenght_loop (bs ++ 13 :: rest) acc
      = some (bs.foldl (fun a b => (a * 10 + (b + 256 - 48) % 256) % 2 ^ 64) acc, bs.length) := by
  induction bs generalizing acc with
  | nil => simp [parse_lenght_loop]
  | cons b bs ih =>
    have hb : b ≠ 13 := h b (by simp)
    have ih' := ih ((acc * 10 + (b + 256 - 48) % 256) % 2 ^ 64)
      (fun x hx => h x (List.mem_cons_of_mem _ hx))
    simp only [List.cons_append, parse_lenght_loop, if_neg hb, List.append_eq, ih',
      List.foldl_cons, List.length_cons]

lemma parse_lenght_append (bs rest : List Nat) (h : ∀ b ∈ bs, b ≠ 13) :
    parse_lenght (bs ++ 13 :: rest)
      = some (bs.foldl (fun a b => (a * 10 + (b + 256 - 48) % 256) % 2 ^ 64) 0, bs.length + 2) := by
  simp [parse_lenght, parse_lenght_loop_append bs rest 0 h]

lemma key_not_in_dbKeys_of_dbRemove (s : Store) (k : String) (p : String) (now : Nat) :
    k ∉ (dbKeys (dbRemove s k) p now).1 := by
  intro hmem
  simp only [dbKeys, List.mem_map] at hmem
  obtain ⟨e, he, hek⟩ := hmem
  have : e ∈ dbRemove s k := List.mem_of_mem_filter he
  simp only [dbRemove, List.mem_filter, decide_eq_true_eq] at this
  exact this.2 hek

/-! ## C1: totality of command interpretation -/

/-- C1 counterexample: interpreting the empty token sequence does not
return a `Command` value — `tokens[0]` panics (modelled as `none`) — so
command interpretation is not total as claimed.  (`echo`/`get` with a
single token and the 5-token `set`-with-`px` shape fail the same
way.) -/
theorem interpret_empty_counterexample : interpret [] = none := rfl

/-- C1 (amended): interpretation returns a `Command` value for every
token sequence that is non-empty, has a second token whenever the name
lowercases to `echo` or `get`, and — when the name lowercases to
`set` — is not the 5-token form whose fourth token lowercases to `px`
(that form always aborts, because the source parses the marker token
itself as the TTL).  Checked malformed shapes (other `set` arities,
short `config`, unrecognized names) yield `Unknown` rather than a
failure. -/
theorem interpret_total_amended (tokens : List String)
    (h0 : tokens ≠ [])
    (hecho : strLower (tokens.headD "") = "echo" → 2 ≤ tokens.length)
    (hget : strLower (tokens.headD "") = "get" → 2 ≤ tokens.length)
    (hset : strLower (tokens.headD "") = "set" →
      ¬(tokens.length = 5 ∧ strLower (tokens.getD 3 "") = "px")) :
    ∃ c, interpret tokens = some c := by
  refine Option.isSome_iff_exists.mp ?_
  cases tokens with
  | nil => exact absurd rfl h0
  | cons t0 rest =>
    simp only [List.headD_cons] at hecho hget hset
    simp only [interpret]
    by_cases h1 : strLower t0 = "ping"
    · rw [if_pos h1]; rfl
    rw [if_neg h1]
    by_cases h2 : strLower t0 = "echo"
    · rw [if_pos h2]
      have hlen := hecho h2
      cases rest with
      | nil => simp at hlen
      | cons a rs => rfl
    rw [if_neg h2]
    by_cases h3 : strLower t0 = "set"
    · rw [if_pos h3]
      by_cases hl3 : (t0 :: rest).length = 3
      · rw [if_pos hl3]; rfl
      · rw [if_neg hl3, if_neg (hset h3)]; rfl
    rw [if_neg h3]
    by_cases h4 : strLower t0 = "get"
    · rw [if_pos h4]
      have hlen := hget h4
      cases rest with
      | nil => simp at hlen
      | cons a rs => rfl
    rw [if_neg h4]
    by_cases h5 : strLower t0 = "config"
    · rw [if_pos h5]
      by_cases hl : (t0 :: rest).length < 3
      · rw [if_pos hl]; rfl
      · rw [if_neg hl]
        by_cases hg : strLower ((t0 :: rest).getD 1 "") = "get"
        · rw [if_pos hg]; rfl
        · rw [if_neg hg]; rfl
    · rw [if_neg h5]; rfl

/-- C1 witness: the amended totality theorem applied to the concrete
token sequence `["PING"]`. -/
theorem interpret_total_amended_witness :
    (["PING"] : List String) ≠ [] ∧ ∃ c, interpret ["PING"] = some c :=
  ⟨by decide, interpret_total_amended ["PING"] (by decide) (by decide) (by decide) (by decide)⟩

/-! ## C2: SET with PX parses the wrong token -/

/-- C2: on the 5-token `SET .. PX ..` token shape the source parses
`tokens[3]` — the `px` marker itself — as the TTL integer and unwraps
the result, so interpretation panics (`none`) even though the fifth
token is a perfectly valid non-negative integer; it never produces
`Set(tokens[1], tokens[2], Some(parse(tokens[4])))`. -/
theorem set_px_always_panics :
    interpret ["set", "key", "value", "px", "100"] = none := by decide

/-! ## Store helper lemmas -/

lemma dbRemove_eq_self (s : Store) (k : String) (h : k ∉ s.map Prod.fst) : dbRemove s k = s := by
  rw [dbRemove, List.filter_eq_self]
  intro e he
  simp only [decide_eq_true_eq]
  intro hek
  exact h (List.mem_map.mpr ⟨e, he, hek⟩)

lemma dbRemove_cons_ne (e : String × ExpiringValue) (t : Store) (k : String) (h : e.1 ≠ k) :
    dbRemove (e :: t) k = e :: dbRemove t k := by
  simp [dbRemove, List.filter_cons, h]

lemma dbRemove_cons_eq (e : String × ExpiringValue) (t : Store) :
    dbRemove (e :: t) e.1 = dbRemove t e.1 := by
  simp [dbRemove, List.filter_cons]

lemma foldl_dbRemove_cons (e : String × ExpiringValue) (ks : List String) :
    ∀ t : Store, e.1 ∉ ks →
      ks.foldl (fun db k => dbRemove db k) (e :: t)
        = e :: ks.foldl (fun db k => dbRemove db k) t := by
  induction ks with
  | nil => intro t _; rfl
  | cons k ks ih =>
    intro t h
    have hek : e.1 ≠ k := by intro hh; exact h (by simp [hh])
    have h' : e.1 ∉ ks := by intro hh; exact h (by simp [hh])
    simp only [List.foldl_cons]
    rw [dbRemove_cons_ne e t k hek, ih (dbRemove t k) h']

lemma expired_keys_subset (s : Store) (now : Nat) :
    ∀ x ∈ (s.filter (fun e => isExpired e.2 now)).map Prod.fst, x ∈ s.map Prod.fst := by
  intro x hx
  simp only [List.mem_map] at hx ⊢
  obtain ⟨e, he, hex⟩ := hx
  exact ⟨e, List.mem_of_mem_filter he, hex⟩

/-- With no duplicate keys (the `HashMap` invariant), the batch of
`remove`s that `Database::keys` performs on the expired keys leaves
exactly the live entries. -/
lemma foldl_dbRemove_expired (s : Store) (now : Nat) (hnd : (s.map Prod.fst).Nodup) :
    ((s.filter (fun e => isExpired e.2 now)).map Prod.fst).foldl (fun db k => dbRemove db k) s
      = s.filter (fun e => !isExpired e.2 now) := by
  induction s with
  | nil => rfl
  | cons e t ih =>
    simp only [List.map_cons, List.nodup_cons] at hnd
    obtain ⟨hni, hnd'⟩ := hnd
    by_cases hexp : isExpired e.2 now
    · rw [List.filter_cons_of_pos (by simp [hexp]), List.map_cons, List.foldl_cons,
        dbRemove_cons_eq e t, dbRemove_eq_self t e.1 hni,
        List.filter_cons_of_neg (by simp [hexp])]
      exact ih hnd'
    · rw [List.filter_cons_of_neg (by simp [hexp]),
        foldl_dbRemove_cons e _ t (fun hh => hni (expired_keys_subset t now _ hh)),
        List.filter_cons_of_pos (by simp [hexp]), ih hnd']

/-! ## C5: get semantics with lazy expiry -/

/-- C5: `Database::get` case analysis.  An absent key returns `none` and
leaves the map unchanged; a present entry with `expires_at` strictly
before `now` is removed and `none` returned, and the key is not listed
by a subsequent `keys("*")` scan of the resulting map; a present
unexpired entry (future or absent expiry) returns its stored value. -/
theorem dbGet_cases (s : Store) (k : String) (now : Nat) :
    (dbLookup s k = none → dbGet s k now = (none, s)) ∧
    (∀ v t, dbLookup s k = some ⟨v, some t⟩ → t < now →
      dbGet s k now = (none, dbRemove s k) ∧ k ∉ (dbKeys (dbGet s k now).2 "*" now).1) ∧
    (∀ v t, dbLookup s k = some ⟨v, some t⟩ → ¬ t < now → dbGet s k now = (some v, s)) ∧
    (∀ v, dbLookup s k = some ⟨v, none⟩ → dbGet s k now = (some v, s)) := by
  refine ⟨?_, ?_, ?_, ?_⟩
  · intro h; simp [dbGet, h]
  · intro v t h ht
    have hg : dbGet s k now = (none, dbRemove s k) := by simp [dbGet, h, ht]
    exact ⟨hg, by rw [hg]; exact key_not_in_dbKeys_of_dbRemove s k "*" now⟩
  · intro v t h ht; simp [dbGet, h, ht]
  · intro v h; simp [dbGet, h]

/-- C5 witness: the expired-entry case at a concrete store, key and
clock. -/
theorem dbGet_cases_witness :
    dbLookup [("a", ⟨"x", some 5⟩)] "a" = some ⟨"x", some 5⟩ ∧ 5 < 10 ∧
      (dbGet [("a", ⟨"x", some 5⟩)] "a" 10 = (none, dbRemove [("a", ⟨"x", some 5⟩)] "a") ∧
        "a" ∉ (dbKeys (dbGet [("a", ⟨"x", some 5⟩)] "a" 10).2 "*" 10).1) :=
  ⟨by decide, by decide,
    (dbGet_cases [("a", ⟨"x", some 5⟩)] "a" 10).2.1 "x" 5 (by decide) (by decide)⟩

/-! ## C6: keys ignores its pattern argument -/

/-- C6 counterexample: with the store holding a live key `"foo"`, the
scan `keys("foo")` — a pattern different from `"*"` — returns
`["foo"]`, not the empty sequence the claim requires for non-wildcard
patterns: the source never reads the `pattern` parameter. -/
theorem dbKeys_pattern_counterexample :
    (dbKeys [("foo", ⟨"v", none⟩)] "foo" 0).1 = ["foo"] := by decide

/-- C6 (amended): for every pattern — wildcard or not — `keys` returns
the keys of all non-expired entries, and (given the hash-map invariant
that keys are unique) the follow-up batch mutation removes exactly the
expired entries; the result does not depend on the pattern at all. -/
theorem dbKeys_ignores_pattern (s : Store) (p : String) (now : Nat)
    (hnd : (s.map Prod.fst).Nodup) :
    (dbKeys s p now).1 = (s.filter (fun e => !isExpired e.2 now)).map Prod.fst ∧
    (dbKeys s p now).2 = s.filter (fun e => !isExpired e.2 now) ∧
    dbKeys s p now = dbKeys s "*" now := by
  exact ⟨rfl, foldl_dbRemove_expired s now hnd, rfl⟩

/-- C6 witness: the amended theorem applied to a concrete two-entry
store with the non-wildcard pattern `"zzz"`. -/
theorem dbKeys_ignores_pattern_witness :
    (([("a", ⟨"x", some 0⟩), ("b", ⟨"y", none⟩)] : Store).map Prod.fst).Nodup ∧
    (dbKeys [("a", ⟨"x", some 0⟩), ("b", ⟨"y", none⟩)] "zzz" 5).2
      = ([("a", ⟨"x", some 0⟩), ("b", ⟨"y", none⟩)] : Store).filter
          (fun e => !isExpired e.2 5) :=
  ⟨by decide,
    (dbKeys_ignores_pattern [("a", ⟨"x", some 0⟩), ("b", ⟨"y", none⟩)] "zzz" 5 (by decide)).2.1⟩

/-! ## C7: TTL semantics of set_with_expire -/

/-- C7: after `set_with_expire(k, v, 0)` at time `t`, a read at any
strictly later instant `t'` (the clock has advanced by the time `get`
samples `SystemTime::now()`) returns `none`; after
`set_with_expire(k, v, 100000)` at `t`, an immediate read at
`t' ≤ t + 100000` returns `v`. -/
theorem ttl_zero_and_positive (s : Store) (k v : String) (t t' : Nat)
    (h1 : t < t') (h2 : t' ≤ t + 100000) :
    (dbGet (dbSetWithExpire s k v 0 t) k t').1 = none ∧
    (dbGet (dbSetWithExpire s k v 100000 t) k t').1 = some v := by
  have hl0 : dbLookup (dbSetWithExpire s k v 0 t) k = some ⟨v, some (t + 0)⟩ := by
    simp [dbSetWithExpire, dbInsert, dbLookup, List.find?_cons]
  have hl1 : dbLookup (dbSetWithExpire s k v 100000 t) k = some ⟨v, some (t + 100000)⟩ := by
    simp [dbSetWithExpire, dbInsert, dbLookup, List.find?_cons]
  constructor
  · simp only [dbGet, hl0]
    rw [if_pos (by omega)]
  · simp only [dbGet, hl1]
    rw [if_neg (by omega)]

/-- C7 witness: the TTL theorem at a concrete store and clock pair
(write at 0, read at 1). -/
theorem ttl_zero_and_positive_witness :
    0 < 1 ∧ 1 ≤ 0 + 100000 ∧
      ((dbGet (dbSetWithExpire [] "k" "v" 0 0) "k" 1).1 = none ∧
        (dbGet (dbSetWithExpire [] "k" "v" 100000 0) "k" 1).1 = some "v") :=
  ⟨by decide, by decide, ttl_zero_and_positive [] "k" "v" 0 1 (by decide) (by decide)⟩

/-! ## C8: the snapshot variable-length integer decoder -/

lemma land192_eq : ∀ b0 < 256, Nat.land b0 192 = b0 / 64 * 64 := by decide

lemma land63_eq : ∀ b0 < 256, Nat.land b0 63 = b0 % 64 := by decide

/-- C8: `length_encode` keyed on the top two bits of the leading byte:
`00` returns the 6-bit low value consuming 1 byte, `01` the 14-bit value
from the low 6 bits of byte 0 (high) and the next byte (low) consuming
2 bytes, `10` the big-endian 32-bit value of the next 4 bytes consuming
5 bytes with byte 0's low bits ignored, and `11` fails rather than
misinterpreting. -/
theorem length_encode_cases (b0 : Nat) (rest : List Nat) (hb : b0 < 256) :
    (Nat.land b0 192 = 0 → length_encode (b0 :: rest) = some (b0 % 64, 1)) ∧
    (Nat.land b0 192 = 64 → ∀ b1 r, rest = b1 :: r →
      length_encode (b0 :: rest) = some (b0 % 64 * 256 + b1, 2)) ∧
    (Nat.land b0 192 = 128 → ∀ b1 b2 b3 b4 r, rest = b1 :: b2 :: b3 :: b4 :: r →
      length_encode (b0 :: rest) = some (((b1 * 256 + b2) * 256 + b3) * 256 + b4, 5)) ∧
    (Nat.land b0 192 = 192 → length_encode (b0 :: rest) = none) := by
  refine ⟨?_, ?_, ?_, ?_⟩
  · intro hm
    have hdiv : b0 / 64 * 64 = 0 := by rw [← land192_eq b0 hb]; exact hm
    have hsm : b0 % 64 = b0 := by omega
    simp [length_encode, hm, hsm]
  · intro hm b1 r hr
    subst hr
    have h63 : Nat.land b0 63 = b0 % 64 := land63_eq b0 hb
    simp [length_encode, hm, h63]
  · intro hm b1 b2 b3 b4 r hr
    subst hr
    simp [length_encode, hm]
  · intro hm
    simp [length_encode, hm]

/-- C8 witness: the `01xxxxxx` case at leading byte 65 with next byte
7. -/
theorem length_encode_cases_witness :
    Nat.land 65 192 = 64 ∧ length_encode [65, 7] = some (65 % 64 * 256 + 7, 2) :=
  ⟨by decide, (length_encode_cases 65 [7] (by decide)).2.1 (by decide) 7 [] rfl⟩

/-! ## C9: the request length-field decoder -/

/-- C9 counterexample: on `"a\r\n"` the length decoder returns the
value 49 with 3 bytes consumed instead of failing — the source never
validates that bytes before the CR are digits, it just folds
`byte - 48` into the accumulator. -/
theorem parse_lenght_nondigit_counterexample :
    parse_lenght (bytesOf "a\r\n") = some (49, 3) := by decide

/-- C9 (amended): `parse_lenght` reads bytes up to the first CR and
returns the fold of `acc * 10 + (byte - 48)` (wrapping) over them
together with the CR index plus 2; digit strings give their decimal
value — `decode_length("123\r\n") = (123, 5)` — and non-digit bytes are
folded in silently rather than causing an error. -/
theorem parse_lenght_amended :
    (∀ bs rest : List Nat, (∀ b ∈ bs, b ≠ 13) →
      parse_lenght (bs ++ 13 :: rest)
        = some (bs.foldl (fun a b => (a * 10 + (b + 256 - 48) % 256) % 2 ^ 64) 0,
            bs.length + 2)) ∧
    parse_lenght (bytesOf "123\r\n") = some (123, 5) :=
  ⟨fun bs rest h => parse_lenght_append bs rest h, by decide⟩

/-- C9 witness: the amended theorem at the digit string `"42"`. -/
theorem parse_lenght_amended_witness :
    (∀ b ∈ ([52, 50] : List Nat), b ≠ 13) ∧
      parse_lenght ([52, 50] ++ 13 :: [10]) = some (42, 4) :=
  ⟨by decide, parse_lenght_amended.1 [52, 50] [10] (by decide)⟩

/-! ## C10: bulk-string decoding of non-UTF-8 payloads -/

/-- Branch-resolved equation for `parse_bulk_string` on a `$`-marked
buffer whose length field decodes and whose payload fits. -/
lemma parse_bulk_string_eq (rest : List Nat) (len off : Nat)
    (hpl : parse_lenght rest = some (len, off))
    (hle : ¬((36 :: rest).length < 1 + off + len)) :
    parse_bulk_string (36 :: rest)
      = some (Except.ok (utf8LossyStr (((36 :: rest).drop (1 + off)).take len),
          1 + off + len + 2)) := by
  show (match parse_lenght rest with
    | none => none
    | some (len, off) =>
      if (36 :: rest).length < 1 + off + len then none
      else some (Except.ok (utf8LossyStr (((36 :: rest).drop (1 + off)).take len),
        1 + off + len + 2))) = _
  rw [hpl]
  exact if_neg hle

/-- C10: a `$`-marked frame with a digit length field whose value equals
the payload length decodes successfully for every payload byte sequence
— valid UTF-8 or not — to the lossily decoded payload, and the reported
consumed count is the full frame length (marker + length field + CRLF +
payload + CRLF). -/
theorem parse_bulk_string_lossy_total (ds payload rest : List Nat)
    (hd : ∀ b ∈ ds, 48 ≤ b ∧ b ≤ 57)
    (hlen : payload.length
      = ds.foldl (fun a b => (a * 10 + (b + 256 - 48) % 256) % 2 ^ 64) 0) :
    parse_bulk_string (36 :: (ds ++ 13 :: 10 :: (payload ++ 13 :: 10 :: rest)))
      = some (Except.ok (utf8LossyStr payload, 1 + (ds.length + 2) + payload.length + 2)) := by
  have hne : ∀ b ∈ ds, b ≠ 13 := fun b hb => by have := hd b hb; omega
  have hpl := parse_lenght_append ds (10 :: (payload ++ 13 :: 10 :: rest)) hne
  rw [← hlen] at hpl
  have hplen : (36 :: (ds ++ [13, 10])).length = 1 + (ds.length + 2) := by
    simp only [List.length_cons, List.length_append, List.length_nil]
    omega
  have hdrop : (36 :: (ds ++ 13 :: 10 :: (payload ++ 13 :: 10 :: rest))).drop (1 + (ds.length + 2))
      = payload ++ 13 :: 10 :: rest := by
    rw [show 36 :: (ds ++ 13 :: 10 :: (payload ++ 13 :: 10 :: rest))
        = (36 :: (ds ++ [13, 10])) ++ (payload ++ 13 :: 10 :: rest) from by simp, ← hplen,
      List.drop_left]
  have htot : (36 :: (ds ++ 13 :: 10 :: (payload ++ 13 :: 10 :: rest))).length
      = 1 + (ds.length + 2) + payload.length + 2 + rest.length := by
    simp only [List.length_cons, List.length_append]
    omega
  rw [parse_bulk_string_eq (ds ++ 13 :: 10 :: (payload ++ 13 :: 10 :: rest)) payload.length
    (ds.length + 2) hpl (by rw [htot]; omega)]
  rw [hdrop, List.take_left]

/-- C10 witness: the frame `$1\r\n<0xFF>\r\n` — a payload that is not
valid UTF-8 — decodes successfully with the full frame consumed. -/
theorem parse_bulk_string_lossy_total_witness :
    (∀ b ∈ ([49] : List Nat), 48 ≤ b ∧ b ≤ 57) ∧
      parse_bulk_string (36 :: ([49] ++ 13 :: 10 :: ([255] ++ 13 :: 10 :: [])))
        = some (Except.ok (utf8LossyStr [255], 1 + (1 + 2) + 1 + 2)) :=
  ⟨by decide, parse_bulk_string_lossy_total [49] [255] [] (by decide) (by decide)⟩

/-! ## C3: snapshot failure policy -/

/-- C3 counterexample: a present snapshot file whose contents lack the
0xFB size-opcode marker (here the single byte 0x11) makes
`Database::new` panic (`position(..).unwrap()` on `None`, modelled as
`none`) instead of starting with an empty keyspace. -/
theorem snapshot_malformed_not_empty :
    database_new ⟨some "d", some "f"⟩ (SnapshotFile.present [17]) 0 = none := by decide

/-- C3 (amended): a missing or unopenable snapshot file — or no
configured `dir`/`dbfilename` pair — starts the server with an empty
keyspace, but malformed snapshot contents (here: no 0xFB marker
anywhere in the 1024-byte read buffer) abort startup with a decode
panic rather than falling back to an empty keyspace. -/
theorem snapshot_failure_policy_amended :
    (∀ (c : Config) (f : SnapshotFile) (now : Nat), get_file_path c = none →
      database_new c f now = some []) ∧
    (∀ (c : Config) (now : Nat), database_new c SnapshotFile.absent now = some []) ∧
    (∀ (contents : List Nat) (c : Config) (now : Nat), get_file_path c ≠ none →
      251 ∉ read_buf contents → database_new c (SnapshotFile.present contents) now = none) := by
  refine ⟨?_, ?_, ?_⟩
  · intro c f now h
    unfold database_new
    rw [h]
  · intro c now
    unfold database_new
    cases hc : get_file_path c <;> rfl
  · intro contents c now h hn
    unfold database_new
    cases hc : get_file_path c with
    | none => exact absurd hc h
    | some p =>
      show serialize (read_buf contents) now = none
      have hfalse : ∀ b ∈ read_buf contents, ¬ (b == 251) = true := by
        intro b hb hbeq
        have hb251 : b = 251 := by simpa using hbeq
        subst hb251
        exact hn hb
      unfold serialize
      rw [List.findIdx?_eq_none_iff.mpr (by simpa using hfalse)]

/-- C3 witness: the no-marker case of the amended failure policy at a
concrete configuration and file content. -/
theorem snapshot_failure_policy_witness :
    get_file_path ⟨some "x", some "y"⟩ ≠ none ∧ 251 ∉ read_buf [0] ∧
      database_new ⟨some "x", some "y"⟩ (SnapshotFile.present [0]) 7 = none :=
  ⟨by decide, by decide,
    snapshot_failure_policy_amended.2.2 [0] ⟨some "x", some "y"⟩ 7 (by decide) (by decide)⟩

/-! ## C4: the command surface main.rs actually recognizes -/

lemma dispatch_main_ok_shape (cmd : String) (n : Nat) (rest : List Nat) (c : Command)
    (h : dispatch_main cmd n rest = some (Except.ok c)) : recognizedMain c = true := by
  unfold dispatch_main at h
  repeat' split at h
  all_goals first
    | (cases Except.ok.inj (Option.some.inj h); rfl)
    | simp at h

lemma parse_command_main_ok_shape (input : List Nat) (c : Command)
    (h : parse_command_main input = some (Except.ok c)) : recognizedMain c = true := by
  cases input with
  | nil => simp [parse_command_main] at h
  | cons b0 rest =>
    unfold parse_command_main at h
    repeat' split at h
    all_goals first
      | exact dispatch_main_ok_shape _ _ _ c h
      | simp at h

/-- C4 counterexample: the well-formed frame `*2\r\n$4\r\nKEYS\r\n$1\r\n*\r\n`
is not recognized — `main.rs::parse_command` returns the decode `Err`,
and `handle_stream` then breaks out of its read loop, closing the
connection without a reply, instead of answering an `Unknown` command
with an error reply and keeping the connection open. -/
theorem keys_unrecognized_counterexample :
    parse_command_main (bytesOf "*2\r\n$4\r\nKEYS\r\n$1\r\n*\r\n") = some (Except.error ()) ∧
    handle_stream_continues (bytesOf "*2\r\n$4\r\nKEYS\r\n$1\r\n*\r\n") = false := by
  constructor <;> decide

/-- C4 (amended): the commands `main.rs` recognizes are exactly `PING`,
`ECHO`, `SET` and `GET` (case-insensitive, witnessed on well-formed
frames); `KEYS` and `CONFIG GET` frames and every other name produce a
decode error; every successfully parsed command is one of the four
shapes; and whenever parsing does not succeed the connection stops
serving further requests (no error reply, no `Unknown` variant). -/
theorem recognized_commands_amended :
    parse_command_main (bytesOf "*1\r\n$4\r\nPING\r\n") = some (Except.ok Command.Ping) ∧
    parse_command_main (bytesOf "*2\r\n$4\r\nECHO\r\n$3\r\nhey\r\n")
      = some (Except.ok (Command.Echo "hey")) ∧
    parse_command_main (bytesOf "*3\r\n$3\r\nSET\r\n$1\r\nk\r\n$1\r\nv\r\n")
      = some (Except.ok (Command.Set "k" "v" none)) ∧
    parse_command_main (bytesOf "*2\r\n$3\r\nGET\r\n$1\r\nk\r\n")
      = some (Except.ok (Command.Get "k")) ∧
    parse_command_main (bytesOf "*3\r\n$6\r\nCONFIG\r\n$3\r\nGET\r\n$3\r\ndir\r\n")
      = some (Except.error ()) ∧
    (∀ (input : List Nat) (c : Command),
      parse_command_main input = some (Except.ok c) → recognizedMain c = true) ∧
    (∀ input : List Nat, (∀ c, parse_command_main input ≠ some (Except.ok c)) →
      handle_stream_continues input = false) := by
  refine ⟨by decide, by decide, by decide, by decide, by decide, ?_, ?_⟩
  · exact fun input c h => parse_command_main_ok_shape input c h
  · intro input hne
    unfold handle_stream_continues
    cases hp : parse_command_main input with
    | none => rfl
    | some v =>
      cases v with
      | error e => rfl
      | ok c => exact absurd hp (hne c)

/-- C4 witness: the recognized-shape conjunct applied to the concrete
`PING` frame parsed by the first conjunct. -/
theorem recognized_commands_witness :
    recognizedMain Command.Ping = true :=
  recognized_commands_amended.2.2.2.2.2.1 (bytesOf "*1\r\n$4\r\nPING\r\n") Command.Ping
    recognized_commands_amended.1
